import Mathlib

/-!
Shallow embedding of the core of `perf/__init__.py` (pyperf 0.7):
the `Benchmark` / `BenchmarkSuite` data model, the versioned JSON
(de)serialization at the record level, the significance engine
(pooled variance, t-score, 95% critical-value table) and the number
formatter.  Machine floats are modelled by `ℚ` (the only irrational
operation, `math.sqrt`, is modelled by `Real.sqrt`); fallible Python
code (raise) is modelled by `Except String`.
-/

/-- Decidable equality for `Except`, used to evaluate concrete runs of the
translated functions. -/
instance {ε α : Type} [DecidableEq ε] [DecidableEq α] : DecidableEq (Except ε α) := fun a b =>
  match a, b with
  | .error e, .error f =>
    if h : e = f then .isTrue (by rw [h]) else .isFalse (by intro hh; cases hh; exact h rfl)
  | .error _, .ok _ => .isFalse (by intro hh; cases hh)
  | .ok _, .error _ => .isFalse (by intro hh; cases hh)
  | .ok x, .ok y =>
    if h : x = y then .isTrue (by rw [h]) else .isFalse (by intro hh; cases hh; exact h rfl)

/-! ### Python dictionaries as association lists (insertion ordered) -/

/-- `d.get(k)` on a Python dict modelled as an insertion-ordered association
list without duplicate keys. -/
def dictGet {α : Type} : List (String × α) → String → Option α
  | [], _ => none
  | (k', v) :: rest, k => if k' = k then some v else dictGet rest k

/-- `d[k] = v` on a Python dict: replace the value of an existing key in
place, otherwise append the new binding at the end. -/
def dictSet {α : Type} : List (String × α) → String → α → List (String × α)
  | [], k, v => [(k, v)]
  | (k', v') :: rest, k, v =>
    if k' = k then (k', v) :: rest else (k', v') :: dictSet rest k v

theorem dictGet_dictSet_self {α : Type} (d : List (String × α)) (k : String) (v : α) :
    dictGet (dictSet d k v) k = some v := by
  induction d with
  | nil => simp [dictGet, dictSet]
  | cons p rest ih =>
    obtain ⟨k', v'⟩ := p
    by_cases h : k' = k
    · simp [dictGet, dictSet, h]
    · simp [dictGet, dictSet, h, ih]

theorem dictSet_of_dictGet {α : Type} {d : List (String × α)} {k : String} {v : α}
    (h : dictGet d k = some v) : dictSet d k v = d := by
  induction d with
  | nil => simp [dictGet] at h
  | cons p rest ih =>
    obtain ⟨k', v'⟩ := p
    by_cases hk : k' = k
    · simp [dictGet, hk] at h
      simp [dictSet, hk, h]
    · simp [dictGet, hk] at h
      simp [dictSet, hk, ih h]

theorem dictGet_ne_nil {α : Type} {d : List (String × α)} {k : String} {v : α}
    (h : dictGet d k = some v) : d ≠ [] := by
  intro hd; subst hd; simp [dictGet] at h

theorem dictGet_append_of_none {α : Type} {a b : List (String × α)} {k : String}
    (ha : dictGet a k = none) (hb : dictGet b k = none) : dictGet (a ++ b) k = none := by
  induction a with
  | nil => simpa using hb
  | cons p rest ih =>
    obtain ⟨k', v'⟩ := p
    by_cases hk : k' = k
    · simp [dictGet, hk] at ha
    · simp [dictGet, hk] at ha ⊢
      exact ih ha

/-! ### Python `str.strip()` -/

/-- The list-level strip: drop whitespace from the front, then from the back. -/
def stripList (l : List Char) : List Char :=
  ((l.dropWhile Char.isWhitespace).reverse.dropWhile Char.isWhitespace).reverse

/-- Python `str.strip()`: remove leading and trailing whitespace. -/
def pyStrip (s : String) : String := ⟨stripList s.data⟩

theorem dropWhile_dropWhile_same {α : Type} (p : α → Bool) (l : List α) :
    (l.dropWhile p).dropWhile p = l.dropWhile p := by
  induction l with
  | nil => simp
  | cons a t ih =>
    by_cases h : p a
    · simp [List.dropWhile_cons, h, ih]
    · simp [List.dropWhile_cons, h]

theorem head_dropWhile_false {α : Type} (p : α → Bool) (l : List α) {a : α} {t : List α}
    (h : l.dropWhile p = a :: t) : p a = false := by
  induction l with
  | nil => simp at h
  | cons b s ih =>
    by_cases hb : p b
    · rw [List.dropWhile_cons_of_pos hb] at h
      exact ih h
    · rw [List.dropWhile_cons_of_neg hb] at h
      cases h
      simpa using hb

theorem stripList_idem (l : List Char) : stripList (stripList l) = stripList l := by
  unfold stripList
  set p := Char.isWhitespace with hp
  set A := l.dropWhile p with hA
  set R := A.reverse.dropWhile p with hR
  -- The stripped list `R.reverse` is a prefix of `A`.
  have hAeq : A = R.reverse ++ (A.reverse.takeWhile p).reverse := by
    calc A = A.reverse.reverse := by rw [List.reverse_reverse]
    _ = (A.reverse.takeWhile p ++ R).reverse := by rw [hR, List.takeWhile_append_dropWhile]
    _ = R.reverse ++ (A.reverse.takeWhile p).reverse := by rw [List.reverse_append]
  -- Its head, when present, is the head of `A`, which is not whitespace.
  have hBdrop : R.reverse.dropWhile p = R.reverse := by
    cases hBcase : R.reverse with
    | nil => simp
    | cons b t =>
      have hAcons : List.dropWhile p l = b :: (t ++ (A.reverse.takeWhile p).reverse) := by
        conv_lhs => rw [← hA, hAeq, hBcase]
        simp
      have hb : p b = false := head_dropWhile_false p l hAcons
      rw [List.dropWhile_cons_of_neg (by simp [hb])]
  rw [hBdrop, List.reverse_reverse, hR, dropWhile_dropWhile_same]

theorem pyStrip_idem (s : String) : pyStrip (pyStrip s) = pyStrip s := by
  unfold pyStrip
  rw [stripList_idem]

/-! ### The Benchmark data model -/

/-- The state of a `Benchmark` object: configuration, stored runs, metadata
and the two cached derived fields (`_samples`, `_median`). -/
structure Benchmark where
  loops : ℕ
  inner_loops : Option ℕ
  warmups : ℕ
  runs : List (List ℚ)
  metadata : List (String × String)
  samplesCache : Option (List ℚ)
  medianCache : Option ℚ
deriving DecidableEq

/-- The `loops` property setter: `loops` must be an int `>= 1`. -/
def checkLoops (v : ℤ) : Except String ℕ :=
  if 1 ≤ v then .ok v.toNat else .error "loops must be an int >= 1"

/-- The `inner_loops` property setter: an int `>= 1` or `None`. -/
def checkInnerLoops : Option ℤ → Except String (Option ℕ)
  | none => .ok none
  | some v => if 1 ≤ v then .ok (some v.toNat) else .error "inner_loops must be an int >= 1 or None"

/-- The `warmups` property setter: an int `>= 0`. -/
def checkWarmups (v : ℤ) : Except String ℕ :=
  if 0 ≤ v then .ok v.toNat else .error "warmups must be an int >= 0"

/-- The `name` property setter: strip the value, reject an empty result, and
store it into the metadata dictionary under the key "name". -/
def setName (metadata : List (String × String)) : Option String →
    Except String (List (String × String))
  | none => .error "name must be a non-empty string"
  | some s =>
    let v := pyStrip s
    if v = "" then .error "name must be a non-empty string"
    else .ok (dictSet metadata "name" v)

/-- `Benchmark.__init__(name, loops, inner_loops, warmups, metadata)`:
runs the property setters in source order, starts with no runs and empty
caches, defaults the metadata to an empty dict and stores the name in it. -/
def benchmarkInit (name : Option String) (loops : ℤ) (inner_loops : Option ℤ)
    (warmups : ℤ) (metadata : Option (List (String × String))) : Except String Benchmark := do
  let l ← checkLoops loops
  let il ← checkInnerLoops inner_loops
  let w ← checkWarmups warmups
  let md ← setName (metadata.getD []) name
  pure { loops := l, inner_loops := il, warmups := w, runs := [], metadata := md,
         samplesCache := none, medianCache := none }

/-- `Benchmark.add_run(samples)`: reject an empty list or any sample not
`> 0`; reject a run with fewer than `warmups + 1` samples; reject a run whose
length differs from the first stored run; otherwise append the run and clear
the derived caches. -/
def Benchmark.add_run (b : Benchmark) (samples : List ℚ) : Except String Benchmark :=
  if samples = [] ∨ ∃ x ∈ samples, ¬ (0 < x) then
    .error "samples must be a non-empty list of float > 0"
  else if (samples.length : ℤ) - (b.warmups : ℤ) < 1 then
    .error "not enough samples for the number of warmups"
  else if b.runs ≠ [] ∧ samples.length ≠ b.runs.headI.length then
    .error "different number of samples"
  else
    .ok { b with runs := b.runs ++ [samples], samplesCache := none, medianCache := none }

/-- Appending a list of runs one by one through `add_run` (the loop of
`Benchmark._json_load`, and the way a benchmark is filled in general). -/
def Benchmark.addRuns (b : Benchmark) (runs : List (List ℚ)) : Except String Benchmark :=
  runs.foldlM Benchmark.add_run b

/-- `Benchmark.get_loops()`: the effective divisor `loops * inner_loops`
(defensively failing on `loops == 0`). -/
def Benchmark.get_loops (b : Benchmark) : Except String ℕ :=
  if b.loops = 0 then .error "loops is zero"
  else .ok (match b.inner_loops with
    | some il => b.loops * il
    | none => b.loops)

/-- `Benchmark.get_samples()`: return the cache when present; otherwise drop
the first `warmups` entries of every run, divide the rest by `get_loops()`
and concatenate in run order. -/
def Benchmark.get_samples (b : Benchmark) : Except String (List ℚ) :=
  match b.samplesCache with
  | some s => .ok s
  | none =>
    match b.get_loops with
    | .ok loops =>
      .ok (b.runs.flatMap fun run => (run.drop b.warmups).map fun s => s / (loops : ℚ))
    | .error e => .error e

/-- `Benchmark.get_nrun()`. -/
def Benchmark.get_nrun (b : Benchmark) : ℕ := b.runs.length

/-- `Benchmark.get_nsample()`: `nrun * (len(runs[0]) - warmups)`, `0` with no
runs (Python's subtraction is signed, hence the `ℤ` result). -/
def Benchmark.get_nsample (b : Benchmark) : ℤ :=
  if b.runs.length = 0 then 0
  else (b.runs.length : ℤ) * ((b.runs.headI.length : ℤ) - (b.warmups : ℤ))

/-! ### JSON records and the versioned file format -/

/-- The JSON record for one benchmark, as a partial structure: `none`
models an absent key.  The `name` field only exists in legacy version-1
records, where its value may be JSON `null` (modelled `some none`). -/
structure BenchData where
  runs : Option (List (List ℚ))
  warmups : Option ℤ
  loops : Option ℤ
  inner_loops : Option ℤ
  metadata : Option (List (String × String))
  name : Option (Option String)
deriving DecidableEq

/-- `Benchmark._as_json()`: omit `warmups` when falsy (0), always write
`loops` (the source guards it with `is not None`, which never holds since the
setter only accepts ints), omit `inner_loops` when `None` and `metadata`
when empty. -/
def Benchmark.asJson (b : Benchmark) : BenchData :=
  { runs := some b.runs
  , warmups := if b.warmups ≠ 0 then some (b.warmups : ℤ) else none
  , loops := some (b.loops : ℤ)
  , inner_loops := b.inner_loops.map fun il => (il : ℤ)
  , metadata := if b.metadata ≠ [] then some b.metadata else none
  , name := none }

/-- `Benchmark._json_load(data)`: default `warmups` to 0 and `loops` to 1,
read the name out of the metadata dict (failing like Python's
`None.get` when `metadata` is absent), construct the benchmark and replay
the runs through `add_run`. -/
def benchmarkJsonLoad (data : BenchData) : Except String Benchmark :=
  let warmups := data.warmups.getD 0
  let loops := data.loops.getD 1
  let inner_loops := data.inner_loops
  match data.metadata with
  | none => .error "AttributeError: NoneType has no attribute get"
  | some md => do
    let bench ← benchmarkInit (dictGet md "name") loops inner_loops warmups (some md)
    match data.runs with
    | none => .error "KeyError: runs"
    | some runs => bench.addRuns runs

/-- The state of a `BenchmarkSuite`: a name-keyed dict of benchmarks. -/
structure BenchmarkSuite where
  benchmarks : List (String × Benchmark)
deriving DecidableEq

/-- `BenchmarkSuite._add_benchmark(name, benchmark)`: reject duplicates. -/
def BenchmarkSuite.addBench (s : BenchmarkSuite) (name : String) (b : Benchmark) :
    Except String BenchmarkSuite :=
  if (dictGet s.benchmarks name).isSome then .error "duplicate benchmark name"
  else .ok ⟨s.benchmarks ++ [(name, b)]⟩

/-- A whole benchmark file: `version`, the legacy singular `benchmark`
record, and the version-2 `benchmarks` dict (absent keys are `none`). -/
structure SuiteFile where
  version : Option ℤ
  benchmark : Option BenchData
  benchmarks : Option (List (String × BenchData))
deriving DecidableEq

/-- `BenchmarkSuite.dump` at the record level: version 2 plus one record
per benchmark, keyed as in the suite. -/
def suiteDump (s : BenchmarkSuite) : SuiteFile :=
  { version := some 2
  , benchmark := none
  , benchmarks := some (s.benchmarks.map fun p => (p.1, p.2.asJson)) }

/-- `bench_data['name'] or "benchmark"` from the version-1 migration:
Python truthiness defaults `None` and the empty string. -/
def v1Name : Option String → String
  | none => "benchmark"
  | some s => if s = "" then "benchmark" else s

/-- The version dispatch of `BenchmarkSuite._load_json`, producing the
name→record pairs to be loaded: version 2 reads `benchmarks`, version 1
migrates the singular `benchmark` record (defaulting an empty name and
injecting the name into metadata when absent), anything else fails. -/
def loadItems (f : SuiteFile) : Except String (List (String × BenchData)) :=
  if f.version = some 2 then
    match f.benchmarks with
    | some bj => .ok bj
    | none => .error "KeyError: benchmarks"
  else if f.version = some 1 then
    match f.benchmark with
    | none => .error "KeyError: benchmark"
    | some bd =>
      match bd.name with
      | none => .error "KeyError: name"
      | some nameVal =>
        let name := v1Name nameVal
        match bd.metadata with
        | none => .error "KeyError: metadata"
        | some md =>
          let md := if (dictGet md "name").isSome then md else dictSet md "name" name
          .ok [(name, { bd with metadata := some md })]
  else .error "file format version not supported"

/-- The loading loop of `BenchmarkSuite._load_json`: `_json_load` every
record and `_add_benchmark` it under its key, starting from an empty suite. -/
def buildSuite (items : List (String × BenchData)) : Except String BenchmarkSuite :=
  items.foldlM (fun suite p =>
    match benchmarkJsonLoad p.2 with
    | .ok bench => suite.addBench p.1 bench
    | .error e => .error e) ⟨[]⟩

/-- `BenchmarkSuite._load_json`: dispatch on the version, load every record,
and reject a file with no benchmark. -/
def loadJson (f : SuiteFile) : Except String BenchmarkSuite :=
  match loadItems f with
  | .error e => .error e
  | .ok items =>
    match buildSuite items with
    | .error e => .error e
    | .ok suite =>
      if suite.benchmarks = [] then .error "the file doesn't contain any benchmark"
      else .ok suite

/-! ### The significance engine -/

/-- `statistics.mean`: the exact mean, failing on an empty input. -/
def pyMean (l : List ℚ) : Except String ℚ :=
  if l = [] then .error "StatisticsError: mean requires at least one data point"
  else .ok (l.sum / (l.length : ℚ))

/-- `_pooled_sample_variance(sample1, sample2)`: the summed squared
deviations of both samples from their own means, divided by the degrees of
freedom `len(sample1) + len(sample2) - 2`; Python raises
`ZeroDivisionError` when the degrees of freedom are zero. -/
def pooled_sample_variance (s1 s2 : List ℚ) : Except String ℚ := do
  let degFreedom : ℤ := (s1.length : ℤ) + (s2.length : ℤ) - 2
  let mean1 ← pyMean s1
  let squares1 := (s1.map fun x => (x - mean1) ^ 2).sum
  let mean2 ← pyMean s2
  let squares2 := (s2.map fun x => (x - mean2) ^ 2).sum
  if degFreedom = 0 then .error "ZeroDivisionError"
  else .ok ((squares1 + squares2) / (degFreedom : ℚ))

/-- `_tscore(sample1, sample2)`: reject different lengths, compute
`error = pooled_sample_variance / len(sample1)` and return
`(mean1 - mean2) / sqrt(error * 2)`; the final division raises
`ZeroDivisionError` when `sqrt(error * 2)` is zero, i.e. exactly when
`error * 2` is zero (the variance is never negative). -/
noncomputable def t_score (s1 s2 : List ℚ) : Except String ℝ :=
  if s1.length ≠ s2.length then .error "different number of samples"
  else do
    let pv ← pooled_sample_variance s1 s2
    let err : ℚ := pv / (s1.length : ℚ)
    let m1 ← pyMean s1
    let m2 ← pyMean s2
    if err * 2 = 0 then .error "ZeroDivisionError"
    else .ok (((m1 - m2 : ℚ) : ℝ) / Real.sqrt ((err * 2 : ℚ) : ℝ))

/-- `_T_DIST_95_CONF_LEVELS`: two-tailed 95% Student's-t critical values
indexed by degrees of freedom, 0..30. -/
def T_DIST_95_CONF_LEVELS : List ℚ :=
  [0, 12.706, 4.303, 3.182, 2.776,
   2.571, 2.447, 2.365, 2.306, 2.262,
   2.228, 2.201, 2.179, 2.160, 2.145,
   2.131, 2.120, 2.110, 2.101, 2.093,
   2.086, 2.080, 2.074, 2.069, 2.064,
   2.060, 2.056, 2.052, 2.048, 2.045,
   2.042]

/-- Python 3 `round` on an exact value: round to nearest, ties to even. -/
def pyRound (q : ℚ) : ℤ :=
  if q - ⌊q⌋ = 1 / 2 then (if 2 ∣ ⌊q⌋ then ⌊q⌋ else ⌊q⌋ + 1) else round q

/-- Python list indexing, with negative indices counting from the end and
`IndexError` out of range. -/
def pyIndex (l : List ℚ) (i : ℤ) : Except String ℚ :=
  let j : ℤ := if 0 ≤ i then i else (l.length : ℤ) + i
  if 0 ≤ j ∧ j < (l.length : ℤ) then .ok (l.getD j.toNat 0) else .error "IndexError"

/-- `_tdist95conf_level(df)`: round `df` to an int, then the cascade of
approximations for large `df`, the clamp to the table's last entry from the
table's length up to 39, and the table lookup below that. -/
def tdist95conf_level (df : ℚ) : Except String ℚ :=
  let d : ℤ := pyRound df
  if 200 ≤ d then .ok 1.960
  else if 100 ≤ d then .ok 1.984
  else if 80 ≤ d then .ok 1.990
  else if 60 ≤ d then .ok 2.000
  else if 50 ≤ d then .ok 2.009
  else if 40 ≤ d then .ok 2.021
  else if (T_DIST_95_CONF_LEVELS.length : ℤ) ≤ d then
    .ok (T_DIST_95_CONF_LEVELS.getD (T_DIST_95_CONF_LEVELS.length - 1) 0)
  else pyIndex T_DIST_95_CONF_LEVELS d

/-- `is_significant(sample1, sample2)`: look up the critical value for
`len(sample1) + len(sample2) - 2` degrees of freedom, compute the t-score,
and return `(abs(t_score) >= critical_value, t_score)`. -/
noncomputable def is_significant (s1 s2 : List ℚ) : Except String (Prop × ℝ) := do
  let degFreedom : ℤ := (s1.length : ℤ) + (s2.length : ℤ) - 2
  let crit ← tdist95conf_level (degFreedom : ℚ)
  let t ← t_score s1 s2
  pure ((crit : ℝ) ≤ |t|, t)

/-! ### The number formatter -/

/-- The `while x >= 10: x //= 10` loop of `_format_number`, counting the
divisions. -/
def pow10Count (x : ℕ) : ℕ :=
  if 10 ≤ x then pow10Count (x / 10) + 1 else 0
termination_by x
decreasing_by exact Nat.div_lt_self (by omega) (by omega)

/-- Python `int.bit_length()` for a non-negative int. -/
def bitLength (n : ℕ) : ℕ :=
  if n = 0 then 0 else Nat.log2 n + 1

/-- `_format_number(number)` with no unit: `10^k` for multiples of 10 at or
above 10000, else `2^k` for even numbers above 8192, else the plain
number. -/
def format_number (number : ℤ) : String :=
  if 10000 ≤ number ∧ number % 10 = 0 then
    "10^" ++ toString (pow10Count number.toNat)
  else if 8192 < number ∧ number % 2 = 0 then
    "2^" ++ toString (bitLength number.toNat - 1)
  else toString number

/-! ### Supporting lemmas: runs bookkeeping -/

theorem exceptBind_ok_iff {α β : Type} {x : Except String α} {f : α → Except String β} {b : β} :
    (x >>= f) = .ok b ↔ ∃ a, x = .ok a ∧ f a = .ok b := by
  cases x with
  | error e =>
    constructor
    · intro h; cases h
    · rintro ⟨a, ha, _⟩; cases ha
  | ok a =>
    constructor
    · intro h; exact ⟨a, rfl, h⟩
    · rintro ⟨a', ha, hf⟩; cases ha; exact hf

theorem add_run_ok_fields {b b' : Benchmark} {s : List ℚ} (h : b.add_run s = .ok b') :
    b' = { b with runs := b.runs ++ [s], samplesCache := none, medianCache := none } ∧
    s ≠ [] ∧ (∀ x ∈ s, 0 < x) ∧ (b.warmups : ℤ) < (s.length : ℤ) ∧
    (b.runs = [] ∨ s.length = b.runs.headI.length) := by
  unfold Benchmark.add_run at h
  split_ifs at h with h1 h2 h3
  push_neg at h1
  cases h
  refine ⟨rfl, h1.1, h1.2, by omega, ?_⟩
  by_cases hr : b.runs = []
  · exact Or.inl hr
  · rcases not_and_or.mp h3 with hc | hc
    · exact absurd (not_not.mp hc) hr
    · exact Or.inr (not_not.mp hc)

theorem headI_append_left {α : Type} [Inhabited α] {l : List α} (t : List α) (h : l ≠ []) :
    (l ++ t).headI = l.headI := by
  cases l with
  | nil => exact absurd rfl h
  | cons a s => rfl

/-- The invariant `add_run` maintains on the stored runs: non-empty, positive,
longer than the warmup count, and all of one length. -/
def runsOK (w : ℕ) (runs : List (List ℚ)) : Prop :=
  ∀ r ∈ runs, r ≠ [] ∧ (∀ x ∈ r, 0 < x) ∧ (w : ℤ) < (r.length : ℤ) ∧
    r.length = runs.headI.length

def Benchmark.runsWF (b : Benchmark) : Prop := runsOK b.warmups b.runs

theorem addRuns_ok_fields {rs : List (List ℚ)} {c b : Benchmark}
    (hc1 : c.samplesCache = none) (hc2 : c.medianCache = none)
    (h : c.addRuns rs = .ok b) :
    b.loops = c.loops ∧ b.inner_loops = c.inner_loops ∧ b.warmups = c.warmups ∧
    b.metadata = c.metadata ∧ b.runs = c.runs ++ rs ∧
    b.samplesCache = none ∧ b.medianCache = none := by
  induction rs generalizing c with
  | nil =>
    unfold Benchmark.addRuns at h
    rw [List.foldlM_nil] at h
    cases h
    simp [hc1, hc2]
  | cons r rest ih =>
    unfold Benchmark.addRuns at h
    rw [List.foldlM_cons] at h
    obtain ⟨c', hc', hrest⟩ := exceptBind_ok_iff.mp h
    obtain ⟨rfl, -, -, -, -⟩ := add_run_ok_fields hc'
    obtain ⟨f1, f2, f3, f4, f5, f6, f7⟩ := ih rfl rfl hrest
    refine ⟨f1, f2, f3, f4, ?_, f6, f7⟩
    rw [f5]
    simp

theorem addRuns_runsWF {rs : List (List ℚ)} {c b : Benchmark}
    (hwf : c.runsWF) (h : c.addRuns rs = .ok b) : b.runsWF := by
  induction rs generalizing c with
  | nil =>
    unfold Benchmark.addRuns at h
    rw [List.foldlM_nil] at h
    cases h
    exact hwf
  | cons r rest ih =>
    unfold Benchmark.addRuns at h
    rw [List.foldlM_cons] at h
    obtain ⟨c', hc', hrest⟩ := exceptBind_ok_iff.mp h
    obtain ⟨rfl, hr1, hr2, hr3, hr4⟩ := add_run_ok_fields hc'
    refine ih ?_ hrest
    show runsOK c.warmups (c.runs ++ [r])
    intro r' hr'
    simp only [List.mem_append, List.mem_singleton] at hr'
    cases hr' with
    | inl hmem =>
      have hne : c.runs ≠ [] := by
        intro hnil; rw [hnil] at hmem; cases hmem
      obtain ⟨g1, g2, g3, g4⟩ := hwf r' hmem
      exact ⟨g1, g2, g3, by rw [headI_append_left _ hne]; exact g4⟩
    | inr heq =>
      subst heq
      refine ⟨hr1, hr2, hr3, ?_⟩
      by_cases hnil : c.runs = []
      · rw [hnil]
        rfl
      · rw [headI_append_left _ hnil]
        rcases hr4 with hnil2 | hlen
        · exact absurd hnil2 hnil
        · exact hlen

theorem addRuns_complete {rs : List (List ℚ)} {c : Benchmark}
    (hc1 : c.samplesCache = none) (hc2 : c.medianCache = none)
    (hnew : ∀ r ∈ rs, r ≠ [] ∧ (∀ x ∈ r, 0 < x) ∧ (c.warmups : ℤ) < (r.length : ℤ) ∧
      r.length = (c.runs ++ rs).headI.length)
    (hold : ∀ r ∈ c.runs, r.length = (c.runs ++ rs).headI.length) :
    c.addRuns rs = .ok { c with runs := c.runs ++ rs } := by
  induction rs generalizing c with
  | nil =>
    unfold Benchmark.addRuns
    rw [List.foldlM_nil]
    rw [show c.runs ++ [] = c.runs from List.append_nil _]
    rfl
  | cons r rest ih =>
    obtain ⟨hr1, hr2, hr3, hr4⟩ := hnew r (List.mem_cons_self r rest)
    have hstep : c.add_run r =
        .ok { c with runs := c.runs ++ [r], samplesCache := none, medianCache := none } := by
      unfold Benchmark.add_run
      rw [if_neg (show ¬(r = [] ∨ ∃ x ∈ r, ¬ 0 < x) by
            push_neg
            exact ⟨hr1, hr2⟩),
          if_neg (show ¬((r.length : ℤ) - (c.warmups : ℤ) < 1) by omega),
          if_neg (show ¬(c.runs ≠ [] ∧ r.length ≠ c.runs.headI.length) by
            intro hand
            obtain ⟨hne, hlen⟩ := hand
            rw [headI_append_left _ hne] at hr4
            exact hlen hr4)]
    have hcc : ({ c with runs := c.runs ++ [r], samplesCache := none, medianCache := none }
        : Benchmark) = { c with runs := c.runs ++ [r] } := by
      cases c
      simp_all
    rw [hcc] at hstep
    have hassoc : ({ c with runs := c.runs ++ [r] } : Benchmark).runs ++ rest
        = c.runs ++ (r :: rest) := by
      simp
    have htail := ih (c := { c with runs := c.runs ++ [r] }) hc1 hc2
      (by
        intro r' hr'
        obtain ⟨g1, g2, g3, g4⟩ := hnew r' (List.mem_cons_of_mem r hr')
        exact ⟨g1, g2, g3, by rw [hassoc]; exact g4⟩)
      (by
        intro r' hr'
        rw [hassoc]
        simp only [List.mem_append, List.mem_singleton] at hr'
        cases hr' with
        | inl hmem => exact hold r' hmem
        | inr heq => subst heq; exact hr4)
    unfold Benchmark.addRuns at htail ⊢
    rw [List.foldlM_cons, hstep]
    rw [show (Except.ok ({ c with runs := c.runs ++ [r] } : Benchmark) >>=
        fun b' => List.foldlM Benchmark.add_run b' rest) =
        List.foldlM Benchmark.add_run ({ c with runs := c.runs ++ [r] } : Benchmark) rest
        from rfl]
    rw [htail]
    congr 1
    simp

theorem exceptBind_ok {α β : Type} (a : α) (f : α → Except String β) :
    (Except.ok a >>= f) = f a := rfl

theorem exceptBind_error {α β : Type} (e : String) (f : α → Except String β) :
    ((Except.error e : Except String α) >>= f) = .error e := rfl

/-! ### Supporting lemmas: the constructor -/

theorem checkLoops_ok {v : ℤ} {n : ℕ} (h : checkLoops v = .ok n) : 1 ≤ v ∧ n = v.toNat := by
  unfold checkLoops at h
  split_ifs at h with h1
  cases h
  exact ⟨h1, rfl⟩

theorem checkLoops_natCast (n : ℕ) (h : 1 ≤ n) : checkLoops (n : ℤ) = .ok n := by
  unfold checkLoops
  rw [if_pos (by exact_mod_cast h)]
  simp

theorem checkInnerLoops_ok {I : Option ℤ} {o : Option ℕ} (h : checkInnerLoops I = .ok o) :
    (∀ i ∈ I, 1 ≤ i) ∧ o = I.map Int.toNat := by
  cases I with
  | none =>
    cases h
    exact ⟨by simp, rfl⟩
  | some v =>
    simp only [checkInnerLoops] at h
    split_ifs at h with h1
    cases h
    exact ⟨by simpa using h1, rfl⟩

theorem checkInnerLoops_natCast (o : Option ℕ) (h : ∀ n ∈ o, 1 ≤ n) :
    checkInnerLoops (o.map fun n => (n : ℤ)) = .ok o := by
  cases o with
  | none => rfl
  | some n =>
    show checkInnerLoops (some ((n : ℕ) : ℤ)) = .ok (some n)
    simp only [checkInnerLoops]
    rw [if_pos (by exact_mod_cast h n rfl)]
    simp

theorem checkWarmups_ok {v : ℤ} {n : ℕ} (h : checkWarmups v = .ok n) : 0 ≤ v ∧ n = v.toNat := by
  unfold checkWarmups at h
  split_ifs at h with h1
  cases h
  exact ⟨h1, rfl⟩

theorem checkWarmups_natCast (n : ℕ) : checkWarmups (n : ℤ) = .ok n := by
  unfold checkWarmups
  rw [if_pos (by positivity)]
  simp

theorem setName_ok {md : List (String × String)} {name : Option String}
    {mdOut : List (String × String)} (h : setName md name = .ok mdOut) :
    ∃ s, name = some s ∧ pyStrip s ≠ "" ∧ mdOut = dictSet md "name" (pyStrip s) := by
  cases name with
  | none => cases h
  | some s =>
    simp only [setName] at h
    split_ifs at h with h1
    cases h
    exact ⟨s, rfl, h1, rfl⟩

theorem setName_of_fixed {md : List (String × String)} {nm : String}
    (h1 : pyStrip nm = nm) (h2 : nm ≠ "") :
    setName md (some nm) = .ok (dictSet md "name" nm) := by
  simp only [setName]
  rw [h1, if_neg h2]

theorem benchmarkInit_ok {name : Option String} {L : ℤ} {I : Option ℤ} {W : ℤ}
    {md : Option (List (String × String))} {b0 : Benchmark}
    (h : benchmarkInit name L I W md = .ok b0) :
    ∃ s, name = some s ∧ pyStrip s ≠ "" ∧ 1 ≤ L ∧ 0 ≤ W ∧ (∀ i ∈ I, 1 ≤ i) ∧
      b0 = { loops := L.toNat, inner_loops := I.map Int.toNat, warmups := W.toNat, runs := [],
             metadata := dictSet (md.getD []) "name" (pyStrip s),
             samplesCache := none, medianCache := none } := by
  unfold benchmarkInit at h
  obtain ⟨l, hl, h⟩ := exceptBind_ok_iff.mp h
  obtain ⟨il, hil, h⟩ := exceptBind_ok_iff.mp h
  obtain ⟨w, hw, h⟩ := exceptBind_ok_iff.mp h
  obtain ⟨md', hmd, h⟩ := exceptBind_ok_iff.mp h
  obtain ⟨hL, rfl⟩ := checkLoops_ok hl
  obtain ⟨hI, rfl⟩ := checkInnerLoops_ok hil
  obtain ⟨hW, rfl⟩ := checkWarmups_ok hw
  obtain ⟨s, rfl, hs, rfl⟩ := setName_ok hmd
  cases h
  exact ⟨s, rfl, hs, hL, hW, hI, rfl⟩

theorem benchmarkInit_complete {nm : String} (l : ℕ) (il : Option ℕ) (w : ℕ)
    (md : List (String × String))
    (hl : 1 ≤ l) (hil : ∀ n ∈ il, 1 ≤ n) (h1 : pyStrip nm = nm) (h2 : nm ≠ "") :
    benchmarkInit (some nm) (l : ℤ) (il.map fun n => (n : ℤ)) (w : ℤ) (some md) =
      .ok { loops := l, inner_loops := il, warmups := w, runs := [],
            metadata := dictSet md "name" nm, samplesCache := none, medianCache := none } := by
  unfold benchmarkInit
  rw [checkLoops_natCast l hl, exceptBind_ok, checkInnerLoops_natCast il hil, exceptBind_ok,
    checkWarmups_natCast w, exceptBind_ok]
  show (setName md (some nm) >>= _) = _
  rw [setName_of_fixed h1 h2, exceptBind_ok]
  rfl

/-! ### Claim C4: add_run validation -/

/-- C4: `add_run` fails exactly when the sample list is empty, or some
element is not `> 0`, or `len(samples) - warmups < 1`, or prior runs exist
and the length differs from theirs; on success the run is appended and the
cached samples/median are invalidated (failure returns only an error, so the
stored state is unchanged). -/
theorem add_run_spec (b : Benchmark) (s : List ℚ) :
    ((∃ e, b.add_run s = .error e) ↔
      (s = [] ∨ (∃ x ∈ s, ¬ (0 < x)) ∨ (s.length : ℤ) - (b.warmups : ℤ) < 1 ∨
        (b.runs ≠ [] ∧ s.length ≠ b.runs.headI.length))) ∧
    (∀ b', b.add_run s = .ok b' →
      b' = { b with runs := b.runs ++ [s], samplesCache := none, medianCache := none }) := by
  constructor
  · unfold Benchmark.add_run
    split_ifs with h1 h2 h3
    · exact ⟨fun _ => h1.imp id Or.inl, fun _ => ⟨_, rfl⟩⟩
    · exact ⟨fun _ => Or.inr (Or.inr (Or.inl h2)), fun _ => ⟨_, rfl⟩⟩
    · exact ⟨fun _ => Or.inr (Or.inr (Or.inr h3)), fun _ => ⟨_, rfl⟩⟩
    · constructor
      · rintro ⟨e, he⟩
        cases he
      · rintro (h | h | h | h)
        · exact absurd (Or.inl h) h1
        · exact absurd (Or.inr h) h1
        · exact absurd h h2
        · exact absurd h h3
  · intro b' h
    exact (add_run_ok_fields h).1

/-- Witness for C4 at a concrete input. -/
theorem add_run_spec_witness :
    (⟨1, none, 0, [[1]], [("name", "x")], none, none⟩ : Benchmark) =
      { (⟨1, none, 0, [], [("name", "x")], none, none⟩ : Benchmark) with
        runs := ([] : List (List ℚ)) ++ [[1]], samplesCache := none, medianCache := none } :=
  (add_run_spec ⟨1, none, 0, [], [("name", "x")], none, none⟩ [1]).2
    ⟨1, none, 0, [[1]], [("name", "x")], none, none⟩ (by decide)

/-! ### Claim C6: which keys _as_json omits -/

/-- C6 (amended): `_as_json` omits `warmups` when it is 0, omits
`inner_loops` when absent, omits `metadata` when empty, but always writes
`loops`, even when it equals 1. -/
theorem as_json_omission_spec (b : Benchmark) :
    (b.asJson.warmups = none ↔ b.warmups = 0) ∧
    (b.asJson.inner_loops = none ↔ b.inner_loops = none) ∧
    (b.asJson.metadata = none ↔ b.metadata = []) ∧
    b.asJson.loops = some (b.loops : ℤ) := by
  unfold Benchmark.asJson
  refine ⟨?_, ?_, ?_, rfl⟩
  · by_cases h : b.warmups = 0 <;> simp [h]
  · cases b.inner_loops <;> simp
  · by_cases h : b.metadata = [] <;> simp [h]

/-- C6 counterexample: a benchmark with `loops = 1` still serializes the
`loops` key (the claim says it is omitted). -/
theorem as_json_loops_counterexample :
    (⟨1, none, 0, [[1]], [("name", "x")], none, none⟩ : Benchmark).loops = 1 ∧
    (⟨1, none, 0, [[1]], [("name", "x")], none, none⟩ : Benchmark).asJson.loops = some 1 := by
  constructor
  · rfl
  · rfl

/-! ### Claim C8: unsupported versions and empty files -/

/-- C8: loading a document whose version is neither 1 nor 2 fails with the
unsupported-version error, and loading a version-2 document with an empty
benchmarks map fails with the no-benchmark error; in both cases no suite is
produced. -/
theorem load_version_errors :
    (∀ f : SuiteFile, f.version ≠ some 1 → f.version ≠ some 2 →
      loadJson f = .error "file format version not supported") ∧
    (∀ f : SuiteFile, f.version = some 2 → f.benchmarks = some [] →
      loadJson f = .error "the file doesn't contain any benchmark") := by
  constructor
  · intro f h1 h2
    unfold loadJson loadItems
    rw [if_neg h2, if_neg h1]
  · intro f h2 hb
    unfold loadJson loadItems
    rw [if_pos h2, hb]
    rfl

/-- Witness for C8 at the concrete inputs of the claim. -/
theorem load_version_errors_witness :
    loadJson ⟨some 3, none, none⟩ = .error "file format version not supported" ∧
    loadJson ⟨some 2, none, some []⟩ = .error "the file doesn't contain any benchmark" :=
  ⟨load_version_errors.1 ⟨some 3, none, none⟩ (by decide) (by decide),
   load_version_errors.2 ⟨some 2, none, some []⟩ rfl rfl⟩

/-! ### Claim C10: division by zero on two length-1 samples -/

/-- C10: for any two singleton sample lists — non-empty and of equal
length — `pooled_sample_variance`, `t_score` and `is_significant` all hit a
division by zero, because the degrees of freedom `len(a)+len(b)-2` are 0. -/
theorem singleton_samples_zero_division (x y : ℚ) :
    pooled_sample_variance [x] [y] = .error "ZeroDivisionError" ∧
    t_score [x] [y] = .error "ZeroDivisionError" ∧
    is_significant [x] [y] = .error "ZeroDivisionError" := by
  have hm1 : pyMean [x] = .ok x := by
    unfold pyMean
    rw [if_neg (by simp)]
    norm_num
  have hm2 : pyMean [y] = .ok y := by
    unfold pyMean
    rw [if_neg (by simp)]
    norm_num
  have hp : pooled_sample_variance [x] [y] = .error "ZeroDivisionError" := by
    simp only [pooled_sample_variance, hm1, hm2, exceptBind_ok, List.length_singleton]
    norm_num
  have ht : t_score [x] [y] = .error "ZeroDivisionError" := by
    unfold t_score
    rw [if_neg (by simp)]
    simp only [hp, exceptBind_error]
  have hd : tdist95conf_level 0 = .ok 0 := by
    have hr : pyRound 0 = 0 := by norm_num [pyRound, round_eq]
    simp only [tdist95conf_level]
    rw [hr]
    rw [if_neg (by norm_num), if_neg (by norm_num), if_neg (by norm_num), if_neg (by norm_num),
      if_neg (by norm_num), if_neg (by norm_num), if_neg (by decide)]
    rfl
  have hs : is_significant [x] [y] = .error "ZeroDivisionError" := by
    simp only [is_significant, List.length_singleton]
    norm_num
    simp only [hd, exceptBind_ok, ht, exceptBind_error]
    rfl
  exact ⟨hp, ht, hs⟩

/-! ### Claim C9: format_number -/

theorem pow10Count_eq_log (x : ℕ) : pow10Count x = Nat.log 10 x := by
  induction x using Nat.strong_induction_on with
  | _ x ih =>
    rw [pow10Count]
    split_ifs with h
    · rw [ih (x / 10) (Nat.div_lt_self (by omega) (by omega))]
      have hpos : 0 < Nat.log 10 x := Nat.log_pos (by norm_num) h
      rw [Nat.log_div_base]
      omega
    · have h0 : Nat.log 10 x = 0 := Nat.log_eq_zero_iff.mpr (Or.inl (by omega))
      omega

theorem bitLength_sub_one {n : ℕ} (h : 1 ≤ n) : bitLength n - 1 = Nat.log 2 n := by
  unfold bitLength
  rw [if_neg (by omega), Nat.log2_eq_log_two]
  omega

/-- C9: `format_number(16384) = "2^14"`, `format_number(10000) = "10^4"`,
`format_number(7) = "7"`; and in general, with no unit, a multiple of 10 at
or above 10000 renders as `10^k`, else an even number above 8192 renders as
`2^k` (with `k` the floor of the corresponding logarithm, as computed by the
division loop and `bit_length`), and anything else renders plainly. -/
theorem format_number_spec :
    format_number 16384 = "2^14" ∧ format_number 10000 = "10^4" ∧ format_number 7 = "7" ∧
    (∀ n : ℤ, 10000 ≤ n → n % 10 = 0 →
      format_number n = "10^" ++ toString (Nat.log 10 n.toNat)) ∧
    (∀ n : ℤ, ¬ (10000 ≤ n ∧ n % 10 = 0) → 8192 < n → n % 2 = 0 →
      format_number n = "2^" ++ toString (Nat.log 2 n.toNat)) ∧
    (∀ n : ℤ, ¬ (10000 ≤ n ∧ n % 10 = 0) → ¬ (8192 < n ∧ n % 2 = 0) →
      format_number n = toString n) := by
  refine ⟨?_, ?_, ?_, ?_, ?_, ?_⟩
  · unfold format_number
    rw [if_neg (by decide), if_pos (by decide)]
    rw [show Int.toNat 16384 = 16384 from rfl]
    rw [show bitLength 16384 = 15 by
      rw [bitLength, if_neg (by decide), Nat.log2_eq_log_two,
        @Nat.log_eq_of_pow_le_of_lt_pow 2 14 16384 (by norm_num) (by norm_num)]]
    decide
  · unfold format_number
    rw [if_pos (by decide)]
    rw [show Int.toNat 10000 = 10000 from rfl]
    rw [pow10Count_eq_log,
      @Nat.log_eq_of_pow_le_of_lt_pow 10 4 10000 (by norm_num) (by norm_num)]
    decide
  · unfold format_number
    rw [if_neg (by decide), if_neg (by decide)]
    decide
  · intro n h1 h2
    unfold format_number
    rw [if_pos ⟨h1, h2⟩, pow10Count_eq_log]
  · intro n h0 h1 h2
    unfold format_number
    rw [if_neg h0, if_pos ⟨h1, h2⟩, bitLength_sub_one (show 1 ≤ n.toNat by omega)]
  · intro n h0 h1
    unfold format_number
    rw [if_neg h0, if_neg h1]

/-- Witness for C9: the general branches applied at concrete inputs. -/
theorem format_number_spec_witness :
    format_number 20000 = "10^" ++ toString (Nat.log 10 (20000 : ℤ).toNat) ∧
    format_number 54 = "54" :=
  ⟨format_number_spec.2.2.2.1 20000 (by decide) (by decide),
   format_number_spec.2.2.2.2.2 54 (by decide) (by decide)⟩

/-! ### Claim C7: the critical-value lookup -/

theorem pyRound_intCast (n : ℤ) : pyRound ((n : ℤ) : ℚ) = n := by
  unfold pyRound
  rw [Int.floor_intCast]
  rw [if_neg (by norm_num), round_intCast]

/-- C7: `_tdist95conf_level` first rounds `df` to the nearest int (Python
round, ties to even), then returns 1.960 from 200 up, 1.984 from 100, 1.990
from 80, 2.000 from 60, 2.009 from 50, 2.021 from 40, the table's last entry
2.042 from the table's length (31) up to 39, and the table entry at index
`df` when `0 ≤ df < 31`. -/
theorem tdist95conf_level_spec (df : ℚ) :
    tdist95conf_level df = tdist95conf_level ((pyRound df : ℤ) : ℚ) ∧
    (200 ≤ pyRound df → tdist95conf_level df = .ok 1.960) ∧
    (100 ≤ pyRound df → pyRound df < 200 → tdist95conf_level df = .ok 1.984) ∧
    (80 ≤ pyRound df → pyRound df < 100 → tdist95conf_level df = .ok 1.990) ∧
    (60 ≤ pyRound df → pyRound df < 80 → tdist95conf_level df = .ok 2.000) ∧
    (50 ≤ pyRound df → pyRound df < 60 → tdist95conf_level df = .ok 2.009) ∧
    (40 ≤ pyRound df → pyRound df < 50 → tdist95conf_level df = .ok 2.021) ∧
    (31 ≤ pyRound df → pyRound df < 40 → tdist95conf_level df = .ok 2.042) ∧
    (0 ≤ pyRound df → pyRound df < 31 →
      tdist95conf_level df = .ok (T_DIST_95_CONF_LEVELS.getD (pyRound df).toNat 0)) := by
  have hlen : ((T_DIST_95_CONF_LEVELS.length : ℕ) : ℤ) = 31 := rfl
  refine ⟨?_, ?_, ?_, ?_, ?_, ?_, ?_, ?_, ?_⟩
  · simp only [tdist95conf_level, pyRound_intCast]
  · intro h1
    simp only [tdist95conf_level]
    rw [if_pos (by omega)]
  · intro h1 h2
    simp only [tdist95conf_level]
    rw [if_neg (by omega), if_pos (by omega)]
  · intro h1 h2
    simp only [tdist95conf_level]
    rw [if_neg (by omega), if_neg (by omega), if_pos (by omega)]
  · intro h1 h2
    simp only [tdist95conf_level]
    rw [if_neg (by omega), if_neg (by omega), if_neg (by omega), if_pos (by omega)]
  · intro h1 h2
    simp only [tdist95conf_level]
    rw [if_neg (by omega), if_neg (by omega), if_neg (by omega), if_neg (by omega),
      if_pos (by omega)]
  · intro h1 h2
    simp only [tdist95conf_level]
    rw [if_neg (by omega), if_neg (by omega), if_neg (by omega), if_neg (by omega),
      if_neg (by omega), if_pos (by omega)]
  · intro h1 h2
    simp only [tdist95conf_level]
    rw [if_neg (by omega), if_neg (by omega), if_neg (by omega), if_neg (by omega),
      if_neg (by omega), if_neg (by omega), if_pos (by rw [hlen]; omega)]
    rfl
  · intro h1 h2
    simp only [tdist95conf_level]
    rw [if_neg (by omega), if_neg (by omega), if_neg (by omega), if_neg (by omega),
      if_neg (by omega), if_neg (by omega), if_neg (by rw [hlen]; omega)]
    simp only [pyIndex]
    rw [if_pos h1, if_pos (⟨h1, by rw [hlen]; omega⟩)]

/-- Witness for C7: the cascade and the table lookup at concrete inputs. -/
theorem tdist95conf_level_spec_witness :
    tdist95conf_level 250 = .ok 1.960 ∧ tdist95conf_level 10 = .ok 2.228 := by
  have h250 : pyRound 250 = 250 := by norm_num [pyRound, round_eq]
  have h10 : pyRound 10 = 10 := by norm_num [pyRound, round_eq]
  constructor
  · exact (tdist95conf_level_spec 250).2.1 (by rw [h250]; norm_num)
  · have h := (tdist95conf_level_spec 10).2.2.2.2.2.2.2.2
      (by rw [h10]; norm_num) (by rw [h10]; norm_num)
    rw [h, h10]
    rfl

/-! ### Claim C5: the version-1 migration -/

/-- C5 counterexample: the claim's example document has no "name" key in its
benchmark record, and the migration reads `bench_data['name']` directly, so
loading fails instead of producing a suite. -/
theorem v1_load_missing_name_counterexample :
    loadJson ⟨some 1, some ⟨some [[1, 2, 3]], none, none, none, some [], none⟩, none⟩ =
      .error "KeyError: name" := by decide

/-- C5 (amended): with the "name" key present (here JSON null), the
version-1 document loads into a suite with exactly the benchmark
"benchmark"; in general a version-1 document whose benchmark record carries
"name" and "metadata" keys is rewritten in-memory to the version-2 shape,
defaulting a null-or-empty name to "benchmark" and injecting the name into
the metadata when absent. -/
theorem v1_load_spec :
    (loadJson ⟨some 1, some ⟨some [[1, 2, 3]], none, none, none, some [], some none⟩, none⟩ =
      .ok ⟨[("benchmark",
        ⟨1, none, 0, [[1, 2, 3]], [("name", "benchmark")], none, none⟩)]⟩) ∧
    (∀ (f : SuiteFile) (bd : BenchData) (nv : Option String) (md : List (String × String)),
      f.version = some 1 → f.benchmark = some bd → bd.name = some nv → bd.metadata = some md →
      loadJson f = loadJson
        { version := some 2, benchmark := none,
          benchmarks := some [(v1Name nv,
            { bd with metadata := some (if (dictGet md "name").isSome then md
                                        else dictSet md "name" (v1Name nv)) })] }) := by
  constructor
  · decide
  · intro f bd nv md h1 h2 h3 h4
    have hL : loadItems f = .ok [(v1Name nv,
        { bd with metadata := some (if (dictGet md "name").isSome then md
                                    else dictSet md "name" (v1Name nv)) })] := by
      simp only [loadItems, h1, h2, h3, h4]
      norm_num
    have hR : loadItems
        { version := some 2, benchmark := none,
          benchmarks := some [(v1Name nv,
            { bd with metadata := some (if (dictGet md "name").isSome then md
                                        else dictSet md "name" (v1Name nv)) })] } =
        .ok [(v1Name nv,
          { bd with metadata := some (if (dictGet md "name").isSome then md
                                      else dictSet md "name" (v1Name nv)) })] := by
      simp only [loadItems]
      norm_num
    unfold loadJson
    rw [hL, hR]

/-- Witness for C5's general migration clause at a concrete document. -/
theorem v1_load_spec_witness :
    loadJson ⟨some 1, some ⟨some [[1, 2, 3]], none, none, none, some [],
        some (some "x")⟩, none⟩ =
      loadJson ⟨some 2, none, some [("x", ⟨some [[1, 2, 3]], none, none, none,
        some [("name", "x")], some (some "x")⟩)]⟩ := by
  have h := v1_load_spec.2
    ⟨some 1, some ⟨some [[1, 2, 3]], none, none, none, some [], some (some "x")⟩, none⟩
    ⟨some [[1, 2, 3]], none, none, none, some [], some (some "x")⟩
    (some "x") [] rfl rfl rfl rfl
  rw [h]
  decide

/-! ### Claim C1: derived samples -/

theorem length_flatMap_const {α : Type} {rs : List (List ℚ)} {f : List ℚ → List α} {k : ℕ}
    (h : ∀ r ∈ rs, (f r).length = k) :
    (rs.flatMap f).length = rs.length * k := by
  induction rs with
  | nil => simp
  | cons r t ih =>
    simp only [List.flatMap_cons, List.length_append, List.length_cons]
    rw [h r (List.mem_cons_self r t), ih (fun r' hr' => h r' (List.mem_cons_of_mem r hr'))]
    ring


/-- C1: on a benchmark built by the constructor with `loops = L`,
`inner_loops = I` (absent treated as 1) and `warmups = W`, and any sequence
of validly appended runs, `get_samples()` is the concatenation, in run
order, of each run with its first `W` entries dropped and every remaining
raw value divided by `L*I`; its length is `nrun * (run_length - W)`, which
also equals `get_nsample()`. -/
theorem get_samples_spec (name : Option String) (L : ℤ) (I : Option ℤ) (W : ℤ)
    (md : Option (List (String × String))) (b0 b : Benchmark) (rs : List (List ℚ))
    (h0 : benchmarkInit name L I W md = .ok b0)
    (h1 : b0.addRuns rs = .ok b) :
    b.get_samples = .ok (rs.flatMap fun r =>
      (r.drop W.toNat).map fun s => s / ((L * I.getD 1 : ℤ) : ℚ)) ∧
    (∀ samples, b.get_samples = .ok samples →
      (samples.length : ℤ) = (rs.length : ℤ) * ((rs.headI.length : ℤ) - W) ∧
      (samples.length : ℤ) = b.get_nsample) := by
  obtain ⟨s, hname, hs, hL, hW, hI, rfl⟩ := benchmarkInit_ok h0
  obtain ⟨f1, f2, f3, f4, f5, f6, f7⟩ := addRuns_ok_fields rfl rfl h1
  dsimp only at f1 f2 f3 f4 f5
  have hrs : b.runs = rs := by rw [f5]; simp
  have hwf : b.runsWF := addRuns_runsWF (by intro r hr; simp at hr) h1
  have hwf' : runsOK W.toNat rs := by
    rw [← f3, ← hrs]
    exact hwf
  have hIpos : (0 : ℤ) ≤ L * I.getD 1 := by
    cases hI2 : I with
    | none => simpa using (by omega : (0 : ℤ) ≤ L)
    | some i =>
      have hi : 1 ≤ i := hI i (by simp [hI2])
      simp only [hI2, Option.getD_some]
      positivity
  have hloops : b.get_loops = .ok ((L * I.getD 1).toNat) := by
    unfold Benchmark.get_loops
    rw [if_neg (by rw [f1]; omega)]
    cases hI2 : I with
    | none =>
      rw [f2, hI2]
      simp only [Option.map_none', f1, Option.getD_none]
      congr 1
      omega
    | some i =>
      have hi : 1 ≤ i := hI i (by simp [hI2])
      rw [f2, hI2]
      simp only [Option.map_some', f1, Option.getD_some]
      congr 1
      have h2 : L * i = ((L.toNat * i.toNat : ℕ) : ℤ) := by
        push_cast
        rw [Int.toNat_of_nonneg (by omega), Int.toNat_of_nonneg (by omega)]
      rw [h2, Int.toNat_natCast]
  have hdiv : (((L * I.getD 1).toNat : ℕ) : ℚ) = ((L * I.getD 1 : ℤ) : ℚ) := by
    rw [← Int.cast_natCast, Int.toNat_of_nonneg hIpos]
  have hsamp : b.get_samples = .ok (rs.flatMap fun r =>
      (r.drop W.toNat).map fun x => x / ((L * I.getD 1 : ℤ) : ℚ)) := by
    simp only [Benchmark.get_samples, f6, hloops, hrs, f3, hdiv]
  refine ⟨hsamp, ?_⟩
  intro samples hsampeq
  rw [hsamp] at hsampeq
  have hsampval : samples = rs.flatMap fun r =>
      (r.drop W.toNat).map fun x => x / ((L * I.getD 1 : ℤ) : ℚ) := by
    cases hsampeq
    rfl
  subst hsampval
  have hWn : ((W.toNat : ℕ) : ℤ) = W := Int.toNat_of_nonneg hW
  by_cases hrsnil : rs = []
  · subst hrsnil
    constructor
    · simp
    · simp [Benchmark.get_nsample, hrs]
  · have hmem : rs.headI ∈ rs := by
      obtain ⟨r0, t, rfl⟩ := List.exists_cons_of_ne_nil hrsnil
      simp
    have hWlt : ((W.toNat : ℕ) : ℤ) < (rs.headI.length : ℤ) := (hwf' rs.headI hmem).2.2.1
    have hWle : W.toNat ≤ rs.headI.length := by exact_mod_cast le_of_lt hWlt
    have hlen : (rs.flatMap fun r =>
        (r.drop W.toNat).map fun x => x / ((L * I.getD 1 : ℤ) : ℚ)).length =
        rs.length * (rs.headI.length - W.toNat) :=
      length_flatMap_const (fun r hr => by
        rw [List.length_map, List.length_drop, (hwf' r hr).2.2.2])
    constructor
    · rw [hlen]
      push_cast [Nat.cast_sub hWle]
      rw [hWn]
    · unfold Benchmark.get_nsample
      rw [hrs, f3, if_neg (by simpa using hrsnil), hlen]
      push_cast [Nat.cast_sub hWle]
      rw [hWn]

/-- Witness for C1 at a concrete benchmark. -/
theorem get_samples_spec_witness :
    (⟨2, some 3, 1, [[6, 12], [6, 18]], [("name", "x")], none, none⟩ : Benchmark).get_samples =
      .ok [2, 3] := by
  have h := (get_samples_spec (some "x") 2 (some 3) 1 none
    ⟨2, some 3, 1, [], [("name", "x")], none, none⟩
    ⟨2, some 3, 1, [[6, 12], [6, 18]], [("name", "x")], none, none⟩
    [[6, 12], [6, 18]] (by decide) (by decide)).1
  rw [h]
  norm_num

/-! ### Claim C2: the serialization round trip -/

/-- A benchmark obtained through the public constructor and `add_run`. -/
def Benchmark.builtWF (b : Benchmark) : Prop :=
  ∃ (name : Option String) (L : ℤ) (I : Option ℤ) (W : ℤ)
    (md : Option (List (String × String))) (b0 : Benchmark) (rs : List (List ℚ)),
    benchmarkInit name L I W md = .ok b0 ∧ b0.addRuns rs = .ok b

/-- `_json_load` on a record whose metadata key is present, unfolded one
step. -/
theorem benchmarkJsonLoad_some_md (runs : Option (List (List ℚ))) (w l il : Option ℤ)
    (md : List (String × String)) (nm : Option (Option String)) :
    benchmarkJsonLoad ⟨runs, w, l, il, some md, nm⟩ =
      (benchmarkInit (dictGet md "name") (l.getD 1) il (w.getD 0) (some md)) >>= fun bench =>
        match runs with
        | none => .error "KeyError: runs"
        | some rs => bench.addRuns rs := rfl

/-- The per-benchmark round trip: `_json_load (b._as_json()) = b` for a
benchmark built through the constructor and `add_run`. -/
theorem jsonLoad_asJson {b : Benchmark} (h : b.builtWF) : benchmarkJsonLoad b.asJson = .ok b := by
  obtain ⟨name, L, I, W, md, b0, rs, h0, h1⟩ := h
  obtain ⟨s, hname, hs, hL, hW, hI, rfl⟩ := benchmarkInit_ok h0
  obtain ⟨f1, f2, f3, f4, f5, f6, f7⟩ := addRuns_ok_fields rfl rfl h1
  dsimp only at f1 f2 f3 f4 f5
  have hwf : b.runsWF := addRuns_runsWF (by intro r hr; simp at hr) h1
  have hnm : dictGet b.metadata "name" = some (pyStrip s) := by
    rw [f4]
    exact dictGet_dictSet_self _ _ _
  have hmdne : b.metadata ≠ [] := dictGet_ne_nil hnm
  have hAs : b.asJson = ⟨some b.runs, if b.warmups ≠ 0 then some ((b.warmups : ℕ) : ℤ) else none,
      some ((b.loops : ℕ) : ℤ), b.inner_loops.map fun n => (n : ℤ), some b.metadata, none⟩ := by
    unfold Benchmark.asJson
    rw [if_pos hmdne]
  have hwg : (if b.warmups ≠ 0 then some ((b.warmups : ℕ) : ℤ) else none).getD 0 =
      ((b.warmups : ℕ) : ℤ) := by
    by_cases hcase : b.warmups = 0 <;> simp [hcase]
  have hloopsge : 1 ≤ b.loops := by rw [f1]; omega
  have hilge : ∀ n ∈ b.inner_loops, 1 ≤ n := by
    rw [f2]
    intro n hn
    cases hI2 : I with
    | none => rw [hI2] at hn; simp at hn
    | some i =>
      rw [hI2] at hn
      simp only [Option.map_some', Option.mem_def, Option.some.injEq] at hn
      have hi : 1 ≤ i := hI i (by simp [hI2])
      omega
  have hinit := benchmarkInit_complete b.loops b.inner_loops b.warmups b.metadata
    hloopsge hilge (pyStrip_idem s) hs
  rw [dictSet_of_dictGet hnm] at hinit
  have hbeq : b = ⟨b.loops, b.inner_loops, b.warmups, b.runs, b.metadata, none, none⟩ := by
    cases b
    simp_all
  rw [hAs, benchmarkJsonLoad_some_md, Option.getD_some, hwg, hnm, hinit, exceptBind_ok]
  show Benchmark.addRuns _ b.runs = .ok b
  rw [addRuns_complete rfl rfl
    (by
      intro r hr
      obtain ⟨g1, g2, g3, g4⟩ := hwf r hr
      exact ⟨g1, g2, g3, by simpa using g4⟩)
    (by intro r hr; simp at hr)]
  rw [show ([] : List (List ℚ)) ++ b.runs = b.runs from rfl]
  exact congrArg Except.ok hbeq.symm

/-- The loading loop over dumped records rebuilds exactly the suite's
benchmark list. -/
theorem buildSuite_asJson {l : List (String × Benchmark)} :
    ∀ acc : BenchmarkSuite,
      (∀ p ∈ l, (p.2).builtWF) →
      (∀ p ∈ l, dictGet acc.benchmarks p.1 = none) →
      (l.map Prod.fst).Nodup →
      (l.map fun p => (p.1, p.2.asJson)).foldlM (fun suite p =>
        match benchmarkJsonLoad p.2 with
        | .ok bench => suite.addBench p.1 bench
        | .error e => .error e) acc = .ok ⟨acc.benchmarks ++ l⟩ := by
  induction l with
  | nil =>
    intro acc _ _ _
    rw [List.map_nil, List.foldlM_nil, List.append_nil]
    rfl
  | cons p t ih =>
    obtain ⟨n, bb⟩ := p
    intro acc hwf hfresh hnodup
    simp only [List.map_cons, List.foldlM_cons]
    rw [jsonLoad_asJson (hwf (n, bb) (List.mem_cons_self _ t))]
    have hadd : acc.addBench n bb = .ok ⟨acc.benchmarks ++ [(n, bb)]⟩ := by
      unfold BenchmarkSuite.addBench
      rw [if_neg (by rw [hfresh (n, bb) (List.mem_cons_self _ t)]; simp)]
    show (acc.addBench n bb >>= _) = _
    rw [hadd, exceptBind_ok]
    have hnmem : n ∉ t.map Prod.fst := by
      rw [List.map_cons] at hnodup
      exact (List.nodup_cons.mp hnodup).1
    have := ih ⟨acc.benchmarks ++ [(n, bb)]⟩ (fun q hq => hwf q (List.mem_cons_of_mem _ hq))
      (by
        intro q hq
        refine dictGet_append_of_none (hfresh q (List.mem_cons_of_mem _ hq)) ?_
        have hqn : q.1 ≠ n := by
          intro hcon
          exact hnmem (hcon ▸ List.mem_map_of_mem Prod.fst hq)
        show dictGet [(n, bb)] q.1 = none
        simp only [dictGet]
        rw [if_neg (Ne.symm hqn)])
      (by
        rw [List.map_cons] at hnodup
        exact (List.nodup_cons.mp hnodup).2)
    rw [this]
    congr 1
    simp

/-- C2 (amended): for every non-empty BenchmarkSuite whose benchmarks were
built through the public constructor and `add_run`, dumping and reloading
yields a suite whose benchmarks are field-for-field equal to the originals
for every name. -/
theorem dump_load_roundtrip (s : BenchmarkSuite)
    (hne : s.benchmarks ≠ [])
    (hnodup : (s.benchmarks.map Prod.fst).Nodup)
    (hwf : ∀ p ∈ s.benchmarks, (p.2).builtWF) :
    loadJson (suiteDump s) = .ok s := by
  have hitems : loadItems (suiteDump s) =
      .ok (s.benchmarks.map fun p => (p.1, p.2.asJson)) := rfl
  have hbuild : buildSuite (s.benchmarks.map fun p => (p.1, p.2.asJson)) = .ok s := by
    unfold buildSuite
    rw [buildSuite_asJson ⟨[]⟩ hwf (fun p _ => rfl) hnodup]
    rw [show ([] : List (String × Benchmark)) ++ s.benchmarks = s.benchmarks from rfl]
  simp only [loadJson, hitems, hbuild]
  rw [if_neg hne]

/-- C2 counterexample: dumping an empty suite and reloading it fails rather
than returning an equal suite, so the claim fails for the empty suite. -/
theorem dump_load_empty_counterexample :
    loadJson (suiteDump ⟨[]⟩) = .error "the file doesn't contain any benchmark" := by decide

/-- Witness for C2 at a concrete one-benchmark suite. -/
theorem dump_load_roundtrip_witness :
    loadJson (suiteDump ⟨[("x", ⟨2, some 3, 1, [[6, 12]], [("name", "x")], none, none⟩)]⟩) =
      .ok ⟨[("x", ⟨2, some 3, 1, [[6, 12]], [("name", "x")], none, none⟩)]⟩ :=
  dump_load_roundtrip _ (by decide) (by decide)
    (by
      intro p hp
      simp only [List.mem_singleton] at hp
      subst hp
      exact ⟨some "x", 2, some 3, 1, none,
        ⟨2, some 3, 1, [], [("name", "x")], none, none⟩, [[6, 12]], by decide, by decide⟩)

/-! ### Claim C3: the t-score formulas -/

/-- Modelled from the spec's words, for comparison with the code: the mean
of a sample sequence. -/
def meanSpec (l : List ℚ) : ℚ := l.sum / (l.length : ℚ)

/-- Modelled from the spec's words, for comparison with the code: the sum of
squared deviations of each sequence from its own mean, divided by
`len(a)+len(b)-2`. -/
def pooledSampleVarianceSpec (a b : List ℚ) : ℚ :=
  ((a.map fun x => (x - meanSpec a) ^ 2).sum + (b.map fun x => (x - meanSpec b) ^ 2).sum) /
    ((a.length : ℚ) + (b.length : ℚ) - 2)

/-- Modelled from the spec's words, for comparison with the code:
`(mean(a) - mean(b)) / sqrt(2 * pooled_sample_variance(a,b) / len(a))`. -/
noncomputable def tScoreSpec (a b : List ℚ) : ℝ :=
  ((meanSpec a - meanSpec b : ℚ) : ℝ) /
    Real.sqrt ((2 * pooledSampleVarianceSpec a b / (a.length : ℚ) : ℚ) : ℝ)

/-- C3 (amended): `t_score` fails with the length-mismatch error when the
lengths differ; for equal-length sequences with at least two elements each
and nonzero pooled variance it returns exactly the claimed formula, and
`is_significant` returns the pair `(critical_value <= |t|, t)` for the
critical value at `len(a)+len(b)-2` degrees of freedom, all without
mutation (the embedding is pure). -/
theorem t_score_spec :
    (∀ a b : List ℚ, a.length ≠ b.length →
      t_score a b = .error "different number of samples") ∧
    (∀ a b : List ℚ, a.length = b.length → 2 ≤ a.length →
      pooledSampleVarianceSpec a b ≠ 0 →
      t_score a b = .ok (tScoreSpec a b) ∧
      (∀ c : ℚ, tdist95conf_level (((a.length : ℤ) + (b.length : ℤ) - 2 : ℤ) : ℚ) = .ok c →
        is_significant a b = .ok (((c : ℚ) : ℝ) ≤ |tScoreSpec a b|, tScoreSpec a b))) := by
  constructor
  · intro a b h
    unfold t_score
    rw [if_pos h]
  · intro a b h1 h2 h3
    have hane : a ≠ [] := by
      intro hc
      subst hc
      simp at h2
    have hbne : b ≠ [] := by
      intro hc
      subst hc
      rw [List.length_nil] at h1
      omega
    have hma : pyMean a = .ok (meanSpec a) := by
      unfold pyMean meanSpec
      rw [if_neg hane]
    have hmb : pyMean b = .ok (meanSpec b) := by
      unfold pyMean meanSpec
      rw [if_neg hbne]
    have hdf : ((a.length : ℤ) + (b.length : ℤ) - 2) ≠ 0 := by omega
    have hpv : pooled_sample_variance a b = .ok (pooledSampleVarianceSpec a b) := by
      simp only [pooled_sample_variance, hma, hmb, exceptBind_ok]
      rw [if_neg hdf]
      unfold pooledSampleVarianceSpec
      rw [show (((a.length : ℤ) + (b.length : ℤ) - 2 : ℤ) : ℚ) =
        ((a.length : ℚ) + (b.length : ℚ) - 2) by push_cast; ring]
    have hlenne : ((a.length : ℕ) : ℚ) ≠ 0 := by
      have h0 : 0 < a.length := by omega
      positivity
    have herr : pooledSampleVarianceSpec a b / ((a.length : ℕ) : ℚ) * 2 ≠ 0 := by
      intro hc
      rcases mul_eq_zero.mp hc with hc1 | hc2
      · rcases div_eq_zero_iff.mp hc1 with hc3 | hc4
        · exact h3 hc3
        · exact hlenne hc4
      · norm_num at hc2
    have hts : t_score a b = .ok (tScoreSpec a b) := by
      unfold t_score
      rw [if_neg (by omega)]
      simp only [hpv, exceptBind_ok, hma, hmb]
      rw [if_neg herr]
      unfold tScoreSpec
      rw [show pooledSampleVarianceSpec a b / ((a.length : ℕ) : ℚ) * 2 =
        2 * pooledSampleVarianceSpec a b / ((a.length : ℕ) : ℚ) by ring]
    refine ⟨hts, ?_⟩
    intro c hc
    simp only [is_significant, hc, exceptBind_ok, hts]
    rfl

/-- C3 counterexample: for the equal-length non-empty inputs `[1]`/`[1]`
(zero degrees of freedom) and `[1,1]`/`[1,1]` (zero pooled variance) the
code raises ZeroDivisionError instead of returning the claimed formula
value. -/
theorem t_score_zero_div_counterexample :
    t_score [1] [1] = .error "ZeroDivisionError" ∧
    t_score [1, 1] [1, 1] = .error "ZeroDivisionError" ∧
    is_significant [1, 1] [1, 1] = .error "ZeroDivisionError" := by
  have h1 : t_score [1] [1] = .error "ZeroDivisionError" := by
    unfold t_score
    rw [if_neg (by simp)]
    have hp : pooled_sample_variance [1] [1] = .error "ZeroDivisionError" := by decide
    simp only [hp, exceptBind_error]
  have hm : pyMean [1, 1] = .ok 1 := by
    unfold pyMean
    rw [if_neg (by simp)]
    norm_num
  have hp2 : pooled_sample_variance [1, 1] [1, 1] = .ok 0 := by
    simp only [pooled_sample_variance, hm, exceptBind_ok]
    norm_num
  have h2 : t_score [1, 1] [1, 1] = .error "ZeroDivisionError" := by
    unfold t_score
    rw [if_neg (by simp)]
    simp only [hp2, exceptBind_ok, hm]
    norm_num
  have hr2 : pyRound 2 = 2 := by norm_num [pyRound, round_eq]
  have hd2 : tdist95conf_level 2 = .ok 4.303 := by
    simp only [tdist95conf_level]
    rw [hr2]
    rw [if_neg (by norm_num), if_neg (by norm_num), if_neg (by norm_num), if_neg (by norm_num),
      if_neg (by norm_num), if_neg (by norm_num), if_neg (by decide)]
    rfl
  have h3 : is_significant [1, 1] [1, 1] = .error "ZeroDivisionError" := by
    simp only [is_significant]
    rw [show ((([1, 1] : List ℚ).length : ℤ) + (([1, 1] : List ℚ).length : ℤ) - 2 : ℤ) = 2
      by norm_num]
    rw [show ((2 : ℤ) : ℚ) = 2 by norm_num]
    simp only [hd2, exceptBind_ok, h2, exceptBind_error]
  exact ⟨h1, h2, h3⟩

/-- Witness for C3 at concrete samples. -/
theorem t_score_spec_witness :
    t_score [1, 2] [4, 6] = .ok (tScoreSpec [1, 2] [4, 6]) ∧
    is_significant [1, 2] [4, 6] =
      .ok ((((4.303 : ℚ) : ℝ)) ≤ |tScoreSpec [1, 2] [4, 6]|, tScoreSpec [1, 2] [4, 6]) := by
  have hpv : pooledSampleVarianceSpec [1, 2] [4, 6] ≠ 0 := by
    norm_num [pooledSampleVarianceSpec, meanSpec]
  have hr2 : pyRound 2 = 2 := by norm_num [pyRound, round_eq]
  have hd2 : tdist95conf_level (((([1, 2] : List ℚ).length : ℤ) +
      (([4, 6] : List ℚ).length : ℤ) - 2 : ℤ) : ℚ) = .ok 4.303 := by
    rw [show ((([1, 2] : List ℚ).length : ℤ) + (([4, 6] : List ℚ).length : ℤ) - 2 : ℤ) = 2
      by norm_num]
    rw [show ((2 : ℤ) : ℚ) = 2 by norm_num]
    simp only [tdist95conf_level]
    rw [hr2]
    rw [if_neg (by norm_num), if_neg (by norm_num), if_neg (by norm_num), if_neg (by norm_num),
      if_neg (by norm_num), if_neg (by norm_num), if_neg (by decide)]
    rfl
  have h := t_score_spec.2 [1, 2] [4, 6] rfl (by norm_num) hpv
  exact ⟨h.1, h.2 4.303 hd2⟩
